import Mathlib

/-!
A shallow embedding of the deployment orchestrator of the `cloudrunify`
repository (files `src/config/parser.ts`, `src/services/cloudrun.ts`,
`src/commands/deploy.ts`), together with proofs about the claims of its
natural-language specification.

The remote platform (Cloud Run client, `gcloud` processes) is modelled as an
explicit "world" value supplying the outcome of each remote interaction; the
orchestrator functions are translated directly from the TypeScript source and
return, besides their outcome, the chronological list of remote interactions
they performed.
-/

set_option maxRecDepth 4000

/-! ## String pattern matchers (the regular expressions of `cloudrun.ts`) -/

/-- Lowercase ASCII letter, the class `[a-z]`. -/
def isLowerAz (c : Char) : Bool :=
  ('a' ≤ c && c ≤ 'z')

/-- ASCII digit, the class `[0-9]` (same as `\d`). -/
def isDigitChar (c : Char) : Bool :=
  ('0' ≤ c && c ≤ '9')

/-- The memory unit characters of the class `[KMGTPEZYkmgtpezy]` in
`cloudrun.ts` line 86. -/
def memUnits : List Char :=
  ['K', 'M', 'G', 'T', 'P', 'E', 'Z', 'Y', 'k', 'm', 'g', 't', 'p', 'e', 'z', 'y']

def isMemUnit (c : Char) : Bool :=
  c ∈ memUnits

/-- Tail of the memory pattern after the unit character: `i?[Bb]?$`. -/
def memTailIB (l : List Char) : Bool :=
  match l with
  | [] => true
  | ['i'] => true
  | ['B'] => true
  | ['b'] => true
  | ['i', 'B'] => true
  | ['i', 'b'] => true
  | _ => false

/-- Tail of the memory pattern after the digits: `[KMGTPEZYkmgtpezy]i?[Bb]?$`
(unit character mandatory, as in the source regex). -/
def memTailUnit (l : List Char) : Bool :=
  match l with
  | [] => false
  | u :: rest => isMemUnit u && memTailIB rest

/-- The memory regex of `cloudrun.ts` line 86:
`^\d+[KMGTPEZYkmgtpezy]i?[Bb]?$`. -/
def memMatch (l : List Char) : Bool :=
  let ds := l.takeWhile isDigitChar
  let rest := l.dropWhile isDigitChar
  decide (ds ≠ []) && memTailUnit rest

def isMemoryFormat (s : String) : Bool :=
  memMatch s.data

/-- Modelled from the spec: the memory pattern as *declared* by the
specification (§4.2 and §8), `^\d+[KMGTPEZYkmgtpezy]?i?[Bb]?$`, in which the
unit character is optional.  This is not the pattern of the source; it exists
only to be compared with `isMemoryFormat`. -/
def specDeclaredMemoryPattern (s : String) : Bool :=
  let ds := s.data.takeWhile isDigitChar
  let rest := s.data.dropWhile isDigitChar
  decide (ds ≠ []) && (memTailIB rest || memTailUnit rest)

/-- The CPU regex of `cloudrun.ts` line 78: `^(\d+(\.\d+)?|(\d+m))$`. -/
def cpuMatch (l : List Char) : Bool :=
  let ds := l.takeWhile isDigitChar
  let rest := l.dropWhile isDigitChar
  decide (ds ≠ []) &&
    (match rest with
     | [] => true
     | ['m'] => true
     | '.' :: frac => decide (frac ≠ []) && frac.all isDigitChar
     | _ => false)

def isCpuFormat (s : String) : Bool :=
  cpuMatch s.data

/-- The service-name regex of `cloudrun.ts` line 124:
`^[a-z][a-z0-9-]{0,48}[a-z0-9]$`. -/
def nameMatch (l : List Char) : Bool :=
  match l with
  | [] => false
  | c :: rest =>
    match rest with
    | [] => false
    | _ :: _ =>
      isLowerAz c &&
      decide (rest.dropLast.length ≤ 48) &&
      rest.dropLast.all (fun m => isLowerAz m || isDigitChar m || m = '-') &&
      (match rest.getLast? with
       | some lc => isLowerAz lc || isDigitChar lc
       | none => false)

def isServiceNameValid (s : String) : Bool :=
  nameMatch s.data

/-- The sanitization of `cloudrun.ts` lines 426/428:
`name.replace(/[^a-zA-Z0-9_-]/g, "_")`. -/
def isSafeNameChar (c : Char) : Bool :=
  ('a' ≤ c && c ≤ 'z') || ('A' ≤ c && c ≤ 'Z') || ('0' ≤ c && c ≤ '9') ||
    c = '_' || c = '-'

def sanitizeName (s : String) : String :=
  String.mk (s.data.map (fun c => if isSafeNameChar c then c else '_'))

/-! ## Configuration data model (`src/config/parser.ts`) -/

structure EnvironmentConfig where
  project_id : String
  region : String
deriving Repr, DecidableEq

structure EnvironmentsSection where
  dev : EnvironmentConfig
  staging : EnvironmentConfig
  prod : EnvironmentConfig
deriving Repr, DecidableEq

inductive Environment where
  | dev
  | staging
  | prod
deriving Repr, DecidableEq

def envTag : Environment → String
  | .dev => "dev"
  | .staging => "staging"
  | .prod => "prod"

def envOf (envs : EnvironmentsSection) : Environment → EnvironmentConfig
  | .dev => envs.dev
  | .staging => envs.staging
  | .prod => envs.prod

structure ServiceSection where
  name : String
  allow_unauthenticated : Bool
  service_account : Option String
deriving Repr, DecidableEq

structure EnvVarEntry where
  name : String
  value : Option String
deriving Repr, DecidableEq

structure ResourcesSection where
  cpu : String
  memory : String
deriving Repr, DecidableEq

structure ScalingSection where
  min_instances : Int
  max_instances : Int
  concurrency : Int
deriving Repr, DecidableEq

structure ContainerSection where
  image : String
  port : Int
  env_vars : List EnvVarEntry
  resources : Option ResourcesSection
  scaling : Option ScalingSection
deriving Repr, DecidableEq

structure SecretEntry where
  name : String
  version : String
  mount_path : Option String
deriving Repr, DecidableEq

structure VolumeEntry where
  name : String
  path : String
  type : String
  bucket : Option String
deriving Repr, DecidableEq

structure BackendServiceSection where
  name : String
  existing : Bool
deriving Repr, DecidableEq

structure LoadBalancerSection where
  name : String
  backend_service : Option BackendServiceSection
deriving Repr, DecidableEq

structure TrafficEntry where
  revision : String
  percent : Int
  tag : Option String
deriving Repr, DecidableEq

structure CloudRunConfig where
  version : String
  project_id : String
  region : String
  environments : EnvironmentsSection
  service : ServiceSection
  container : ContainerSection
  secrets : List SecretEntry
  volumes : List VolumeEntry
  load_balancer : Option LoadBalancerSection
  traffic : List TrafficEntry
deriving Repr, DecidableEq

/-- `ConfigParser.getServiceNameForEnv` (`parser.ts` lines 146-148). -/
def getServiceNameForEnv (config : CloudRunConfig) (env : Environment) : String :=
  config.service.name ++ "-" ++ envTag env

/-- `ConfigParser.getConfigForEnv` (`parser.ts` lines 150-158): spreads the
base config and replaces only `service.name`. -/
def getConfigForEnv (config : CloudRunConfig) (env : Environment) : CloudRunConfig :=
  { config with
    service := { config.service with name := getServiceNameForEnv config env } }

/-! ## `CloudRunService.validateResourceConfig` (`cloudrun.ts` lines 76-111) -/

/-- JavaScript `x || 0` on a number. -/
def orZero (v : Int) : Int :=
  if v = 0 then 0 else v

def cpuViolation (config : CloudRunConfig) : Bool :=
  match config.container.resources with
  | some r => !(isCpuFormat r.cpu)
  | none => false

def memoryViolation (config : CloudRunConfig) : Bool :=
  match config.container.resources with
  | some r => !(isMemoryFormat r.memory)
  | none => false

def minInstancesViolation (config : CloudRunConfig) : Bool :=
  match config.container.scaling with
  | some s => decide (s.min_instances < 0)
  | none => false

def maxInstancesViolation (config : CloudRunConfig) : Bool :=
  match config.container.scaling with
  | some s => decide (s.max_instances < orZero s.min_instances)
  | none => false

def concurrencyViolation (config : CloudRunConfig) : Bool :=
  match config.container.scaling with
  | some s => decide (s.concurrency < 1) || decide (s.concurrency > 1000)
  | none => false

/-- `validateResourceConfig` (`cloudrun.ts` lines 76-111): throws on the first
violated check, in source order. -/
def validateResourceConfig (config : CloudRunConfig) : Except String Unit :=
  if cpuViolation config then
    .error "Invalid CPU format. Must be a number or a millicpu value (e.g., \"1\" or \"1000m\")"
  else if memoryViolation config then
    .error "Invalid memory format. Must be a number followed by a unit (e.g., \"256Mi\", \"1Gi\")"
  else if minInstancesViolation config then
    .error "Minimum instances cannot be negative"
  else if maxInstancesViolation config then
    .error "Maximum instances must be greater than or equal to minimum instances"
  else if concurrencyViolation config then
    .error "Concurrency must be between 1 and 1000"
  else
    .ok ()

/-! ## Volume mounts and volumes (`cloudrun.ts` lines 408-451) -/

structure VolumeMount where
  name : String
  mountPath : String
  readOnly : Bool
deriving Repr, DecidableEq

inductive VolumeSource where
  | secretSrc (secret : String)
  | gcs (bucket : String)
  | persistentVolumeClaim (claimName : String)
deriving Repr, DecidableEq

structure VolumeDef where
  name : String
  source : VolumeSource
deriving Repr, DecidableEq

/-- `createVolumeMounts` (`cloudrun.ts` lines 408-414): mounts derived from
secrets use the *raw* secret name; `secret.mount_path || default` follows JS
truthiness (an empty string falls back to the default path). -/
def createVolumeMounts (secrets : List SecretEntry) : List VolumeMount :=
  secrets.map (fun s =>
    { name := s.name
      mountPath :=
        match s.mount_path with
        | some p => if p = "" then "/secrets/" ++ s.name else p
        | none => "/secrets/" ++ s.name
      readOnly := true })

/-- `createVolumeMountsFromVolumes` (`cloudrun.ts` lines 416-422). -/
def createVolumeMountsFromVolumes (volumes : List VolumeEntry) : List VolumeMount :=
  volumes.map (fun v =>
    { name := v.name
      mountPath := v.path
      readOnly := v.type = "read-only" })

/-- `createVolumes` (`cloudrun.ts` lines 424-451): secret volumes use the
*sanitized* secret name both as volume name and as secret reference;
`if (volume.bucket)` follows JS truthiness (an empty-string bucket means the
persistent-claim branch). -/
def createVolumes (secrets : List SecretEntry) (volumes : List VolumeEntry) :
    List VolumeDef :=
  secrets.map (fun s =>
    { name := sanitizeName s.name
      source := .secretSrc (sanitizeName s.name) }) ++
  volumes.map (fun v =>
    match v.bucket with
    | some b =>
      if b = "" then { name := v.name, source := .persistentVolumeClaim v.name }
      else { name := v.name, source := .gcs b }
    | none => { name := v.name, source := .persistentVolumeClaim v.name })

/-! ## The deploy driver (`cloudrun.ts` lines 113-276) -/

structure ServiceCondition where
  state : String
  message : Option String
deriving Repr, DecidableEq

/-- The service details returned by `getService`; `conditions` is `none` when
the field is absent (JS `undefined`). -/
structure ServiceDetails where
  conditions : Option (List ServiceCondition)
  uri : String
deriving Repr, DecidableEq

/-- `conditions[0]?.state || "UNKNOWN"` (`cloudrun.ts` line 234). -/
def condStatus (conds : List ServiceCondition) : String :=
  match conds.head? with
  | some c => if c.state = "" then "UNKNOWN" else c.state
  | none => "UNKNOWN"

def POLLING_TIMEOUT : Nat := 10 * 60 * 1000

def POLLING_INTERVAL : Nat := 5000

/-- `` `... timed out after ${POLLING_TIMEOUT / 1000} seconds` `` -/
def baseTimeoutMsg (serviceName : String) : String :=
  "Service " ++ serviceName ++ " deployment timed out after " ++
    toString (POLLING_TIMEOUT / 1000) ++ " seconds"

/-- The `if (lastCondition.message)` suffix of the timeout message. -/
def timeoutMsgSuffix (message : Option String) : String :=
  match message with
  | some m => if m = "" then "" else "\nMessage: " ++ m
  | none => ""

inductive PollResult where
  /-- The loop broke with `CONDITION_SUCCEEDED`. -/
  | succeeded (details : ServiceDetails)
  /-- The timeout branch threw its `Error` with the given message. -/
  | timedOut (msg : String)
  /-- The timeout branch evaluated `conditions[conditions.length - 1].state`
  on an *empty* `conditions` array: member access on `undefined`, a JS
  `TypeError`, not the timeout message. -/
  | crashed
  /-- Artifact of the finite model: the scripted observation list ran out
  before the loop reached a terminal state. -/
  | pending
deriving Repr, DecidableEq

/-- The timeout branch (`cloudrun.ts` lines 210-220): builds the message from
the last element of the most recently fetched `conditions` array.  With
`conditions` present but empty, `conditions[conditions.length - 1]` is
`undefined` and reading `.state` throws a `TypeError` (modelled `crashed`). -/
def timeoutResult (serviceName : String) (last : Option ServiceDetails) : PollResult :=
  match last with
  | none => .timedOut (baseTimeoutMsg serviceName)
  | some d =>
    match d.conditions with
    | none => .timedOut (baseTimeoutMsg serviceName)
    | some conds =>
      match conds.getLast? with
      | none => .crashed
      | some c =>
        .timedOut (baseTimeoutMsg serviceName ++ "\nLast known status: " ++ c.state ++
          timeoutMsgSuffix c.message)

/-- The poll loop (`cloudrun.ts` lines 209-253), as a function of the list of
successive `getService` results.  `n` counts finished iterations; since
`startTime` is taken after the settle delay and each iteration ends in a
5000 ms sleep, the wall clock at the top of iteration `n` is
`POLLING_INTERVAL * n`.  Returns the terminal result and how many
`getService` calls were made. -/
def pollAux (serviceName : String) (obs : List (Option ServiceDetails)) (n : Nat)
    (last : Option ServiceDetails) : PollResult × Nat :=
  if POLLING_INTERVAL * n > POLLING_TIMEOUT then
    (timeoutResult serviceName last, 0)
  else
    match obs with
      | [] => (.pending, 0)
      | o :: rest =>
        match o with
        | none =>
          let r := pollAux serviceName rest (n + 1) none
          (r.1, r.2 + 1)
        | some d =>
          match d.conditions with
          | none =>
            let r := pollAux serviceName rest (n + 1) (some d)
            (r.1, r.2 + 1)
          | some conds =>
            if condStatus conds = "CONDITION_SUCCEEDED" then
              (.succeeded d, 1)
            else
              let r := pollAux serviceName rest (n + 1) (some d)
              (r.1, r.2 + 1)

/-- Whether one `getService` observation makes the loop break with success. -/
def obsSucceeds (o : Option ServiceDetails) : Bool :=
  match o with
  | some d =>
    match d.conditions with
    | some conds => decide (condStatus conds = "CONDITION_SUCCEEDED")
    | none => false
  | none => false

/-- A remote interaction performed by `deploy`, in chronological order. -/
inductive DeployEvent where
  | createService
  | getService
  | setIamPolicy (resource : String) (role : String) (members : List String)
  | lbSetup
deriving Repr, DecidableEq

inductive DeployOutcome where
  | ok (uri : String)
  | err (msg : String)
  /-- A JS `TypeError` thrown by the timeout handler itself. -/
  | crash
  /-- Artifact of the finite model: ran out of scripted observations. -/
  | pending
deriving Repr, DecidableEq

/-- The remote world as `deploy` observes it: the outcome of `createService`,
the successive `getService` results, the outcome of `setIamPolicy` and of the
load-balancer provisioning (§4.4, modelled as one opaque external phase since
no claim depends on its internals). -/
structure DeployWorld where
  createResult : Except String Unit
  observations : List (Option ServiceDetails)
  iamResult : Except String Unit
  lbResult : Except String Unit

def servicePath (config : CloudRunConfig) : String :=
  "projects/" ++ config.project_id ++ "/locations/" ++ config.region ++
    "/services/" ++ config.service.name

/-- The load-balancer phase of `deploy` (`cloudrun.ts` lines 260-269) followed
by the final success report of `serviceDetails.uri`. -/
def deployLbPhase (config : CloudRunConfig) (w : DeployWorld) (d : ServiceDetails)
    (ev : List DeployEvent) : DeployOutcome × List DeployEvent :=
  match config.load_balancer with
  | some _ =>
    match w.lbResult with
    | .error e => (.err e, ev ++ [.lbSetup])
    | .ok _ => (.ok d.uri, ev ++ [.lbSetup])
  | none => (.ok d.uri, ev)

/-- `CloudRunService.deploy` (`cloudrun.ts` lines 113-276): validation, the
service-name regex, the container check, `createService`, the poll loop, the
conditional `allowUnauthenticated` IAM call (fatal on failure, lines 55-74 and
255-257), then the optional load-balancer setup. -/
def deploy (config : CloudRunConfig) (w : DeployWorld) :
    DeployOutcome × List DeployEvent :=
  match validateResourceConfig config with
  | .error e => (.err e, [])
  | .ok _ =>
    if !(isServiceNameValid config.service.name) then
      (.err ("Invalid service name: \"" ++ config.service.name ++
        "\". It must start with a letter, end with a letter or digit, and can only contain lowercase letters, digits, and hyphens."), [])
    else if config.container.image = "" || config.container.port = 0 then
      (.err "Container configuration is invalid. Ensure that the image and port are specified.", [])
    else
      match w.createResult with
      | .error e => (.err e, [.createService])
      | .ok _ =>
        let pr := pollAux config.service.name w.observations 0 none
        let ev0 := DeployEvent.createService :: List.replicate pr.2 .getService
        match pr.1 with
        | .pending => (.pending, ev0)
        | .crashed => (.crash, ev0)
        | .timedOut m => (.err m, ev0)
        | .succeeded d =>
          if config.service.allow_unauthenticated then
            let ev1 := ev0 ++ [.setIamPolicy (servicePath config) "roles/run.invoker" ["allUsers"]]
            match w.iamResult with
            | .error e => (.err e, ev1)
            | .ok _ => deployLbPhase config w d ev1
          else
            deployLbPhase config w d ev0

/-! ## `CloudRunService.rollback` (`cloudrun.ts` lines 489-512) -/

structure UpdateServiceRequest where
  name : String
  traffic : List TrafficEntry
deriving Repr, DecidableEq

/-- `rollback`: issues one `updateService` pinning 100% of traffic to the
given revision; any platform error is logged and rethrown unchanged. -/
def rollback (config : CloudRunConfig) (revision : String)
    (updateResult : Except String Unit) :
    Except String Unit × UpdateServiceRequest :=
  let request : UpdateServiceRequest :=
    { name := "projects/" ++ config.project_id ++ "/locations/" ++ config.region ++
        "/services/" ++ config.service.name
      traffic := [{ revision := revision, percent := 100, tag := none }] }
  match updateResult with
  | .error e => (.error e, request)
  | .ok _ => (.ok (), request)

/-! ## `CloudRunService.destroy` (`cloudrun.ts` lines 531-637) -/

/-- One `gcloud` invocation of the load-balancer teardown, with the names it
is given in the source. -/
inductive GCmd where
  | forwardingRuleDelete (name : String)
  | targetProxyDelete (name : String)
  | urlMapDelete (name : String)
  | addressDelete (name : String)
  | removeBackend (backendService : String) (neg : String) (region : String)
  | negDelete (neg : String) (region : String)
  | backendServiceDelete (name : String)
deriving Repr, DecidableEq

/-- The remote world as `destroy` observes it: the outcome of the
`deleteService` client call and, per `gcloud` command, the outcome of
`executeCommand`. -/
structure DestroyWorld where
  deleteServiceResult : Except String Unit
  cmdResult : GCmd → Except String Unit

structure DestroyTrace where
  result : Except String Unit
  /-- The `deleteService` client call was issued. -/
  serviceDeleteAttempted : Bool
  /-- The `gcloud` deletions attempted, in order. -/
  attempts : List GCmd
  /-- The deletions whose failure was logged as a warning. -/
  warnings : List GCmd
deriving Repr

/-- One `try { executeCommand(...) } catch { console.warn(...) }` block:
the command is attempted, a failure is recorded as a warning and execution
continues. -/
def tryStep (w : DestroyWorld) (st : List GCmd × List GCmd) (c : GCmd) :
    List GCmd × List GCmd :=
  match w.cmdResult c with
  | .ok _ => (st.1 ++ [c], st.2)
  | .error _ => (st.1 ++ [c], st.2 ++ [c])

/-- `config.load_balancer?.backend_service?.name || serviceName-backend-service`
(`cloudrun.ts` line 536), with JS truthiness on the name. -/
def backendServiceNameOf (config : CloudRunConfig) : String :=
  match config.load_balancer with
  | some lb =>
    match lb.backend_service with
    | some b =>
      if b.name = "" then config.service.name ++ "-backend-service" else b.name
    | none => config.service.name ++ "-backend-service"
  | none => config.service.name ++ "-backend-service"

/-- `!config.load_balancer.backend_service?.existing` gate of the teardown. -/
def lbExisting (lb : LoadBalancerSection) : Bool :=
  match lb.backend_service with
  | some b => b.existing
  | none => false

/-- `CloudRunService.destroy` (`cloudrun.ts` lines 531-637): deletes the
service first (failure propagates), then, when a load balancer is configured,
tears its resources down best-effort in source order — forwarding rule,
target proxy, URL map, static IP (only when not `existing`), NEG detach, NEG
delete, backend-service delete (only when not `existing`). -/
def destroy (config : CloudRunConfig) (w : DestroyWorld) : DestroyTrace :=
  let serviceName := config.service.name
  let negName := serviceName ++ "-neg"
  let backendServiceName := backendServiceNameOf config
  match w.deleteServiceResult with
  | .error e =>
    { result := .error e, serviceDeleteAttempted := true, attempts := [], warnings := [] }
  | .ok _ =>
    match config.load_balancer with
    | none =>
      { result := .ok (), serviceDeleteAttempted := true, attempts := [], warnings := [] }
    | some lb =>
      let st0 : List GCmd × List GCmd := ([], [])
      let st1 :=
        if lbExisting lb then st0
        else
          tryStep w
            (tryStep w
              (tryStep w
                (tryStep w st0 (.forwardingRuleDelete (serviceName ++ "-forwarding-rule")))
                (.targetProxyDelete (serviceName ++ "-target-proxy")))
              (.urlMapDelete (serviceName ++ "-url-map")))
            (.addressDelete (serviceName ++ "-ip"))
      let st2 := tryStep w st1 (.removeBackend backendServiceName negName config.region)
      let st3 := tryStep w st2 (.negDelete negName config.region)
      let st4 :=
        if lbExisting lb then st3
        else tryStep w st3 (.backendServiceDelete backendServiceName)
      { result := .ok (), serviceDeleteAttempted := true,
        attempts := st4.1, warnings := st4.2 }

/-- The teardown deletions `destroy` attempts, in order, for a configuration
with a load balancer. -/
def expectedTeardown (config : CloudRunConfig) (lb : LoadBalancerSection) : List GCmd :=
  let serviceName := config.service.name
  (if lbExisting lb then []
   else
     [.forwardingRuleDelete (serviceName ++ "-forwarding-rule"),
      .targetProxyDelete (serviceName ++ "-target-proxy"),
      .urlMapDelete (serviceName ++ "-url-map"),
      .addressDelete (serviceName ++ "-ip")]) ++
  [.removeBackend (backendServiceNameOf config) (serviceName ++ "-neg") config.region,
   .negDelete (serviceName ++ "-neg") config.region] ++
  (if lbExisting lb then [] else [.backendServiceDelete (backendServiceNameOf config)])

/-- Whether a `gcloud` command fails in the given world. -/
def cmdFails (w : DestroyWorld) (c : GCmd) : Bool :=
  match w.cmdResult c with
  | .error _ => true
  | .ok _ => false

/-! ## The environment runner (`src/commands/deploy.ts`, `createDestroyCommand`
lines 50-68, and the analogous deploy loop) -/

inductive RunResult where
  /-- `process.exit(code)` was called. -/
  | exited (code : Nat)
  /-- The loop finished; the listed environments had their failure logged.
  The process then ends with exit code 0. -/
  | completed (failures : List Environment)
deriving Repr, DecidableEq

/-- The per-environment loop of `createDestroyCommand` (`deploy.ts` lines
50-68): runs the operation for each environment; on failure it logs the error
and, only when not in `--all-envs` mode, calls `process.exit(1)`. -/
def runEnvironments (allEnvs : Bool) (todo : List Environment)
    (outcome : Environment → Except String Unit) (failures : List Environment) :
    RunResult :=
  match todo with
  | [] => .completed failures
  | e :: rest =>
    match outcome e with
    | .ok _ => runEnvironments allEnvs rest outcome failures
    | .error _ =>
      if allEnvs then runEnvironments allEnvs rest outcome (failures ++ [e])
      else .exited 1

/-- The process exit code resulting from a run. -/
def exitCodeOf : RunResult → Nat
  | .exited c => c
  | .completed _ => 0

/-- Whether the per-environment operation failed for `e`. -/
def envFails (outcome : Environment → Except String Unit) (e : Environment) : Bool :=
  match outcome e with
  | .error _ => true
  | .ok _ => false

/-! ## Sample data for concrete evaluations -/

/-- A well-formed base configuration whose per-environment section declares a
different project and region than the top level. -/
def baseSample : CloudRunConfig :=
  { version := "1.0"
    project_id := "base-proj"
    region := "base-region"
    environments :=
      { dev := { project_id := "dev-proj", region := "dev-region" }
        staging := { project_id := "stg-proj", region := "stg-region" }
        prod := { project_id := "prod-proj", region := "prod-region" } }
    service := { name := "my-svc", allow_unauthenticated := false, service_account := none }
    container :=
      { image := "img:latest", port := 8080, env_vars := [], resources := none,
        scaling := some { min_instances := 1, max_instances := 2, concurrency := 100 } }
    secrets := []
    volumes := []
    load_balancer := none
    traffic := [] }

/-! ## C1 -/

/-- C1: the claim says `getConfigForEnv` suffixes the service name with the
environment tag *and* replaces `projectId`/`region` by the values declared for
that environment.  The code only suffixes the name: for every configuration
the returned `project_id` and `region` are the base ones, and on `baseSample`
(whose dev environment declares `dev-proj`/`dev-region`) the returned config
still carries `base-proj`/`base-region`. -/
theorem getConfigForEnv_keeps_base_project_and_region :
    (∀ (c : CloudRunConfig) (e : Environment),
      (getConfigForEnv c e).service.name = c.service.name ++ "-" ++ envTag e ∧
      (getConfigForEnv c e).project_id = c.project_id ∧
      (getConfigForEnv c e).region = c.region) ∧
    (getConfigForEnv baseSample .dev).service.name = "my-svc-dev" ∧
    (getConfigForEnv baseSample .dev).project_id = "base-proj" ∧
    (getConfigForEnv baseSample .dev).region = "base-region" ∧
    (envOf baseSample.environments .dev).project_id = "dev-proj" ∧
    (envOf baseSample.environments .dev).region = "dev-region" ∧
    (getConfigForEnv baseSample .dev).project_id ≠
      (envOf baseSample.environments .dev).project_id := by
  refine ⟨fun c e => ⟨rfl, rfl, rfl⟩, rfl, rfl, rfl, rfl, rfl, ?_⟩
  decide

/-! ## C7 -/

/-- C7: the claim says the volume-mount name generated for a secret equals the
volume-definition name, both being the sanitized secret name.  In the code
`createVolumeMounts` uses the *raw* secret name while `createVolumes` uses the
sanitized one: for the secret named `a.b` the mount is named `a.b` but the
volume is named `a_b`. -/
theorem secret_mount_and_volume_names_diverge :
    sanitizeName "a.b" = "a_b" ∧
    (createVolumeMounts [{ name := "a.b", version := "1", mount_path := none }]).map
      VolumeMount.name = ["a.b"] ∧
    (createVolumes [{ name := "a.b", version := "1", mount_path := none }] []).map
      VolumeDef.name = ["a_b"] ∧
    ("a.b" : String) ≠ "a_b" := by
  refine ⟨?_, ?_, ?_, ?_⟩ <;> decide

/-! ## C8 -/

/-- C8: `rollback` issues an update whose traffic list is exactly one entry
pinning 100% of traffic to the given revision, and propagates the platform's
raw error unchanged. -/
theorem rollback_pins_revision (config : CloudRunConfig) (revision : String)
    (updateResult : Except String Unit) :
    (rollback config revision updateResult).2.traffic =
      [{ revision := revision, percent := 100, tag := none }] ∧
    (rollback config revision updateResult).2.name =
      "projects/" ++ config.project_id ++ "/locations/" ++ config.region ++
        "/services/" ++ config.service.name ∧
    (∀ e, updateResult = .error e → (rollback config revision updateResult).1 = .error e) ∧
    (updateResult = .ok () → (rollback config revision updateResult).1 = .ok ()) := by
  cases updateResult with
  | ok u =>
    refine ⟨rfl, rfl, ?_, fun _ => rfl⟩
    intro e he
    exact absurd he (by simp)
  | error e0 =>
    refine ⟨rfl, rfl, ?_, ?_⟩
    · intro e he
      cases he
      rfl
    · intro h
      exact absurd h (by simp)

/-- Witness for C8 at the rollback scenario of the spec: revision `rev-2`. -/
theorem rollback_pins_revision_witness :
    (rollback baseSample "rev-2" (.error "revision does not exist")).2.traffic =
      [{ revision := "rev-2", percent := 100, tag := none }] ∧
    (rollback baseSample "rev-2" (.error "revision does not exist")).1 =
      .error "revision does not exist" :=
  ⟨(rollback_pins_revision baseSample "rev-2" (.error "revision does not exist")).1,
   (rollback_pins_revision baseSample "rev-2" (.error "revision does not exist")).2.2.1
     "revision does not exist" rfl⟩

/-! ## C6 -/

/-- C6 counterexample: the code's memory validation does *not* accept exactly
the strings matching the spec's declared pattern
`^\d+[KMGTPEZYkmgtpezy]?i?[Bb]?$`: the bare digit string `256` matches the
declared pattern (everything after the digits is optional there) yet is
rejected by the code, whose regex requires the unit letter. -/
theorem memory_pattern_differs_from_spec :
    specDeclaredMemoryPattern "256" = true ∧ isMemoryFormat "256" = false := by
  constructor <;> decide

/-- Declarative characterization of the set accepted by the code's memory
regex `^\d+[KMGTPEZYkmgtpezy]i?[Bb]?$`: one or more digits, a mandatory unit
character, then an optional `i` and an optional `B`/`b`. -/
def MemAccepted (s : String) : Prop :=
  ∃ (ds : List Char) (u : Char) (tail : List Char),
    s.data = ds ++ u :: tail ∧ ds ≠ [] ∧ (∀ c ∈ ds, isDigitChar c = true) ∧
    isMemUnit u = true ∧ memTailIB tail = true

theorem isMemUnit_not_digit {c : Char} (h : isMemUnit c = true) :
    isDigitChar c = false := by
  simp only [isMemUnit, memUnits, List.mem_cons, List.not_mem_nil, or_false,
    decide_eq_true_eq] at h
  rcases h with rfl | rfl | rfl | rfl | rfl | rfl | rfl | rfl | rfl | rfl | rfl | rfl |
    rfl | rfl | rfl | rfl <;> decide

theorem takeWhile_digits_append (ds : List Char) (u : Char) (tl : List Char)
    (hds : ∀ c ∈ ds, isDigitChar c = true) (hu : isDigitChar u = false) :
    (ds ++ u :: tl).takeWhile isDigitChar = ds ∧
    (ds ++ u :: tl).dropWhile isDigitChar = u :: tl := by
  induction ds with
  | nil => simp [List.takeWhile, List.dropWhile, hu]
  | cons a as ih =>
    have ha : isDigitChar a = true := hds a (by simp)
    have h' := ih (fun c hc => hds c (by simp [hc]))
    simp [List.takeWhile, List.dropWhile, ha, h'.1, h'.2]

/-- C6, amended: the memory validation of `validateResourceConfig` accepts
exactly the strings of the form digits + mandatory unit letter + optional `i`
+ optional `B`/`b` (the code's regex, in which the unit is required, unlike
the spec's declared pattern); in particular `256Mi` is accepted and the bare
digit string `256` is rejected. -/
theorem memoryFormat_exact (s : String) :
    (isMemoryFormat s = true ↔ MemAccepted s) ∧
    isMemoryFormat "256Mi" = true ∧ isMemoryFormat "256" = false := by
  refine ⟨⟨?_, ?_⟩, by decide, by decide⟩
  · intro h
    unfold isMemoryFormat memMatch at h
    simp only [Bool.and_eq_true, decide_eq_true_eq] at h
    obtain ⟨hne, htail⟩ := h
    unfold memTailUnit at htail
    cases hd : s.data.dropWhile isDigitChar with
    | nil => rw [hd] at htail; exact absurd htail (by simp)
    | cons u tl =>
      rw [hd] at htail
      simp only [Bool.and_eq_true] at htail
      refine ⟨s.data.takeWhile isDigitChar, u, tl, ?_, hne, ?_, htail.1, htail.2⟩
      · rw [← hd, List.takeWhile_append_dropWhile]
      · intro c hc
        exact List.mem_takeWhile_imp hc
  · rintro ⟨ds, u, tl, hsplit, hne, hdig, hu, htl⟩
    have h := takeWhile_digits_append ds u tl hdig (isMemUnit_not_digit hu)
    unfold isMemoryFormat memMatch memTailUnit
    rw [hsplit, h.1, h.2]
    simp [hne, hu, htl]

/-- Witness for C6: the accepted string `256Mi` satisfies the declarative
characterization, via the equivalence. -/
theorem memoryFormat_exact_witness :
    isMemoryFormat "256Mi" = true ∧ MemAccepted "256Mi" :=
  ⟨(memoryFormat_exact "256Mi").2.1,
   (memoryFormat_exact "256Mi").1.mp (by decide)⟩

/-! ## C9 -/

theorem runEnvironments_allEnvs_completes (todo : List Environment)
    (outcome : Environment → Except String Unit) :
    ∀ acc, runEnvironments true todo outcome acc =
      .completed (acc ++ todo.filter (envFails outcome)) := by
  induction todo with
  | nil => intro acc; simp [runEnvironments]
  | cons e rest ih =>
    intro acc
    cases h : outcome e with
    | ok u =>
      rw [runEnvironments, h, ih]
      have : envFails outcome e = false := by simp [envFails, h]
      simp [List.filter_cons, this]
    | error err =>
      rw [runEnvironments, h]
      simp only [if_pos rfl, ih]
      have : envFails outcome e = true := by simp [envFails, h]
      simp [List.filter_cons, this]

/-- Outcome function used for the C9 concrete runs: the dev environment
fails, the others succeed. -/
def c9Outcome : Environment → Except String Unit
  | .dev => .error "deploy failed in dev"
  | .staging => .ok ()
  | .prod => .ok ()

/-- C9 counterexample: in all-environments mode, with dev failing and the
other environments succeeding, the loop completes having only *logged* the
failure, and the process exit code is 0 — not non-zero as the claim states. -/
theorem allEnvs_failure_exits_zero :
    envFails c9Outcome .dev = true ∧
    runEnvironments true [Environment.dev, .staging, .prod] c9Outcome [] =
      .completed [.dev] ∧
    exitCodeOf (runEnvironments true [Environment.dev, .staging, .prod] c9Outcome []) =
      0 := by
  refine ⟨rfl, ?_, ?_⟩ <;> decide

/-- C9, amended: in all-environments mode a per-environment failure is
recorded and the run continues through every remaining environment, but the
process then exits with code 0 whether or not an environment failed (the exit
code does not reflect the failures); in single-environment mode any failure
aborts the whole run with exit code 1. -/
theorem allEnvs_continue_single_abort :
    (∀ (todo : List Environment) (outcome : Environment → Except String Unit),
      runEnvironments true todo outcome [] =
        .completed (todo.filter (envFails outcome)) ∧
      exitCodeOf (runEnvironments true todo outcome []) = 0) ∧
    (∀ (e : Environment) (rest : List Environment)
        (outcome : Environment → Except String Unit) (err : String),
      outcome e = .error err →
        runEnvironments false (e :: rest) outcome [] = .exited 1) := by
  constructor
  · intro todo outcome
    have h := runEnvironments_allEnvs_completes todo outcome []
    simp only [List.nil_append] at h
    exact ⟨h, by rw [h]; rfl⟩
  · intro e rest outcome err h
    rw [runEnvironments, h]
    simp

/-- Witness for C9: a concrete all-environments run with a dev failure
completes over all three environments with exit code 0, and a concrete
single-environment run aborts with exit code 1. -/
theorem allEnvs_continue_single_abort_witness :
    runEnvironments true [Environment.dev, .staging, .prod] c9Outcome [] =
      .completed ([Environment.dev, .staging, .prod].filter (envFails c9Outcome)) ∧
    exitCodeOf (runEnvironments true [Environment.dev, .staging, .prod] c9Outcome []) = 0 ∧
    runEnvironments false [Environment.dev, .staging] c9Outcome [] = .exited 1 :=
  ⟨(allEnvs_continue_single_abort.1 [Environment.dev, .staging, .prod] c9Outcome).1,
   (allEnvs_continue_single_abort.1 [Environment.dev, .staging, .prod] c9Outcome).2,
   allEnvs_continue_single_abort.2 .dev [.staging] c9Outcome "deploy failed in dev" rfl⟩

/-! ## C10 -/

/-- C10: in `destroy`, the service-deletion call is made first and is not
best-effort: when it fails the error propagates to the caller and none of the
load-balancer teardown deletions is attempted. -/
theorem destroy_stops_when_service_delete_fails (config : CloudRunConfig)
    (w : DestroyWorld) (e : String) (h : w.deleteServiceResult = .error e) :
    (destroy config w).result = .error e ∧
    (destroy config w).serviceDeleteAttempted = true ∧
    (destroy config w).attempts = [] ∧
    (destroy config w).warnings = [] := by
  unfold destroy
  rw [h]
  exact ⟨rfl, rfl, rfl, rfl⟩

/-- Witness for C10: concrete run whose `deleteService` fails. -/
theorem destroy_stops_when_service_delete_fails_witness :
    (destroy baseSample
      { deleteServiceResult := .error "permission denied",
        cmdResult := fun _ => .ok () }).result = .error "permission denied" ∧
    (destroy baseSample
      { deleteServiceResult := .error "permission denied",
        cmdResult := fun _ => .ok () }).attempts = [] :=
  ⟨(destroy_stops_when_service_delete_fails baseSample _ "permission denied" rfl).1,
   (destroy_stops_when_service_delete_fails baseSample _ "permission denied" rfl).2.2.1⟩

/-! ## C4 -/

theorem tryStep_eq (w : DestroyWorld) (st : List GCmd × List GCmd) (c : GCmd) :
    tryStep w st c = (st.1 ++ [c], st.2 ++ if cmdFails w c then [c] else []) := by
  unfold tryStep cmdFails
  cases h : w.cmdResult c <;> simp

theorem if_singleton_append (b : Bool) (x : GCmd) (l : List GCmd) :
    (if b = true then [x] else []) ++ l = if b = true then x :: l else l := by
  cases b <;> simp

theorem if_cons_append (b : Bool) (x : GCmd) (l1 l2 : List GCmd) :
    (if b = true then x :: l1 else l1) ++ l2 =
      if b = true then x :: (l1 ++ l2) else l1 ++ l2 := by
  cases b <;> simp

/-- C4: during load-balancer teardown in `destroy`, every individual deletion
is attempted independently — the list of attempted deletions is exactly the
expected sequence, regardless of which commands fail; each failing command is
recorded as a warning (and only those); the overall result is still success;
and the forwarding-rule, target-proxy, URL-map, static-IP and backend-service
deletions appear in that sequence only when the load balancer was newly
created (`existing = false`). -/
theorem destroy_teardown_best_effort (config : CloudRunConfig) (w : DestroyWorld)
    (lb : LoadBalancerSection) (hlb : config.load_balancer = some lb)
    (hok : w.deleteServiceResult = .ok ()) :
    (destroy config w).result = .ok () ∧
    (destroy config w).attempts = expectedTeardown config lb ∧
    (destroy config w).warnings = (expectedTeardown config lb).filter (cmdFails w) := by
  unfold destroy expectedTeardown
  rw [hok, hlb]
  cases hex : lbExisting lb <;>
    simp [hex, tryStep_eq, List.filter_cons, List.filter_nil, if_singleton_append,
      if_cons_append]

/-- Witness for C4 at the spec's teardown scenario: a newly-created load
balancer whose NEG deletion fails while every other deletion succeeds — all
seven deletions are still attempted, exactly one warning results, and the
teardown is not a hard failure. -/
theorem destroy_teardown_best_effort_witness :
    (destroy
      { baseSample with
        load_balancer := some { name := "lb", backend_service := none } }
      { deleteServiceResult := .ok (),
        cmdResult := fun c =>
          match c with
          | .negDelete _ _ => .error "NEG still in use"
          | _ => .ok () }).result = .ok () ∧
    (destroy
      { baseSample with
        load_balancer := some { name := "lb", backend_service := none } }
      { deleteServiceResult := .ok (),
        cmdResult := fun c =>
          match c with
          | .negDelete _ _ => .error "NEG still in use"
          | _ => .ok () }).attempts =
      [.forwardingRuleDelete "my-svc-forwarding-rule",
       .targetProxyDelete "my-svc-target-proxy",
       .urlMapDelete "my-svc-url-map",
       .addressDelete "my-svc-ip",
       .removeBackend "my-svc-backend-service" "my-svc-neg" "base-region",
       .negDelete "my-svc-neg" "base-region",
       .backendServiceDelete "my-svc-backend-service"] ∧
    (destroy
      { baseSample with
        load_balancer := some { name := "lb", backend_service := none } }
      { deleteServiceResult := .ok (),
        cmdResult := fun c =>
          match c with
          | .negDelete _ _ => .error "NEG still in use"
          | _ => .ok () }).warnings = [.negDelete "my-svc-neg" "base-region"] := by
  have h := destroy_teardown_best_effort
    { baseSample with load_balancer := some { name := "lb", backend_service := none } }
    { deleteServiceResult := .ok (),
      cmdResult := fun c =>
        match c with
        | .negDelete _ _ => .error "NEG still in use"
        | _ => .ok () }
    { name := "lb", backend_service := none } rfl rfl
  refine ⟨h.1, ?_, ?_⟩
  · rw [h.2.1]
    decide
  · rw [h.2.2]
    decide

/-! ## C5 -/

theorem validate_ok_no_violation (config : CloudRunConfig)
    (h : validateResourceConfig config = .ok ()) :
    cpuViolation config = false ∧ memoryViolation config = false ∧
    minInstancesViolation config = false ∧ maxInstancesViolation config = false ∧
    concurrencyViolation config = false := by
  unfold validateResourceConfig at h
  split_ifs at h with h1 h2 h3 h4 h5
  exact ⟨by simp [h1], by simp [h2], by simp [h3], by simp [h4], by simp [h5]⟩

/-- C5: a configuration violating the service-name pattern, the CPU pattern,
the memory format, or the scaling bounds makes `deploy` fail with a
configuration error before issuing any remote call: the outcome is an error
and the list of remote interactions is empty (no create, no status read, no
IAM call). -/
theorem deploy_config_error_before_any_remote_call (config : CloudRunConfig)
    (w : DeployWorld)
    (h : isServiceNameValid config.service.name = false ∨
      (∃ r, config.container.resources = some r ∧
        (isCpuFormat r.cpu = false ∨ isMemoryFormat r.memory = false)) ∨
      (∃ s, config.container.scaling = some s ∧
        (s.min_instances < 0 ∨ s.max_instances < s.min_instances ∨
          s.concurrency < 1 ∨ 1000 < s.concurrency))) :
    (∃ msg, (deploy config w).1 = .err msg) ∧ (deploy config w).2 = [] := by
  cases hv : validateResourceConfig config with
  | error e =>
    refine ⟨⟨e, ?_⟩, ?_⟩ <;> simp [deploy, hv]
  | ok u =>
    cases u
    have hnov := validate_ok_no_violation config hv
    have hname : isServiceNameValid config.service.name = false := by
      rcases h with hname | ⟨r, hr, hcpu | hmem⟩ | ⟨s, hs, hviol⟩
      · exact hname
      · exact absurd hnov.1 (by simp [cpuViolation, hr, hcpu])
      · exact absurd hnov.2.1 (by simp [memoryViolation, hr, hmem])
      · exfalso
        rcases hviol with hmin | hmax | hc1 | hc2
        · exact absurd hnov.2.2.1 (by simp [minInstancesViolation, hs, hmin])
        · have hmin0 : ¬ s.min_instances < 0 := by
            intro hlt
            exact absurd hnov.2.2.1 (by simp [minInstancesViolation, hs, hlt])
          have : s.max_instances < orZero s.min_instances := by
            unfold orZero
            split_ifs with h0
            · omega
            · exact hmax
          exact absurd hnov.2.2.2.1 (by simp [maxInstancesViolation, hs, this])
        · exact absurd hnov.2.2.2.2 (by simp [concurrencyViolation, hs, hc1])
        · exact absurd hnov.2.2.2.2 (by simp [concurrencyViolation, hs, hc2])
    constructor
    · refine ⟨"Invalid service name: \"" ++ config.service.name ++
        "\". It must start with a letter, end with a letter or digit, and can only contain lowercase letters, digits, and hyphens.", ?_⟩
      simp [deploy, hv, hname]
    · simp [deploy, hv, hname]

/-- Witness for C5: a config whose service name violates the pattern (it
starts with an uppercase letter) is rejected with no remote interaction. -/
theorem deploy_config_error_before_any_remote_call_witness :
    (∃ msg, (deploy { baseSample with
        service := { baseSample.service with name := "Bad" } }
      { createResult := .ok (), observations := [], iamResult := .ok (),
        lbResult := .ok () }).1 = .err msg) ∧
    (deploy { baseSample with
        service := { baseSample.service with name := "Bad" } }
      { createResult := .ok (), observations := [], iamResult := .ok (),
        lbResult := .ok () }).2 = [] :=
  deploy_config_error_before_any_remote_call
    { baseSample with service := { baseSample.service with name := "Bad" } }
    { createResult := .ok (), observations := [], iamResult := .ok (), lbResult := .ok () }
    (Or.inl (by decide))

/-! ## Poll-loop lemmas -/

theorem poll_timeout_iff (n : Nat) :
    (POLLING_INTERVAL * n > POLLING_TIMEOUT) ↔ 121 ≤ n := by
  unfold POLLING_INTERVAL POLLING_TIMEOUT
  omega

/-- The `serviceDetails` variable after consuming the observations `l`,
starting from `init`: each iteration overwrites it with the fetched value. -/
def finalLast (init : Option ServiceDetails) (l : List (Option ServiceDetails)) :
    Option ServiceDetails :=
  l.foldl (fun _ o => o) init

theorem finalLast_nil (init : Option ServiceDetails) : finalLast init [] = init := rfl

theorem finalLast_cons (init o : Option ServiceDetails) (l : List (Option ServiceDetails)) :
    finalLast init (o :: l) = finalLast o l := rfl

theorem pollAux_timeout_eq (serviceName : String) :
    ∀ (obs : List (Option ServiceDetails)) (n : Nat) (last : Option ServiceDetails),
      n ≤ 121 → 121 - n ≤ obs.length →
      (∀ o ∈ obs.take (121 - n), obsSucceeds o = false) →
      pollAux serviceName obs n last =
        (timeoutResult serviceName (finalLast last (obs.take (121 - n))), 121 - n) := by
  intro obs
  induction obs with
  | nil =>
    intro n last hn hlen _
    have hn121 : n = 121 := by simp at hlen; omega
    subst hn121
    rw [pollAux.eq_def]
    simp [poll_timeout_iff, finalLast]
  | cons o rest ih =>
    intro n last hn hlen hpre
    by_cases h121 : n = 121
    · subst h121
      rw [pollAux.eq_def]
      simp [poll_timeout_iff, finalLast]
    · have hlt : n < 121 := lt_of_le_of_ne hn h121
      have hnt : ¬ (POLLING_INTERVAL * n > POLLING_TIMEOUT) := by
        rw [poll_timeout_iff]; omega
      have heq : 121 - n = (120 - n) + 1 := by omega
      have htake : (o :: rest).take (121 - n) = o :: rest.take (120 - n) := by
        rw [heq]; rfl
      have ho : obsSucceeds o = false := by
        apply hpre; rw [htake]; simp
      have heq' : 121 - (n + 1) = 120 - n := by omega
      have hpre' : ∀ x ∈ rest.take (121 - (n + 1)), obsSucceeds x = false := by
        intro x hx
        apply hpre
        rw [htake]
        rw [heq'] at hx
        simp [hx]
      have hlen' : 121 - (n + 1) ≤ rest.length := by
        simp at hlen; omega
      have hcount : 121 - n = 121 - (n + 1) + 1 := by omega
      rw [pollAux.eq_def]
      simp only [if_neg hnt]
      rw [htake, finalLast_cons, hcount, ← heq']
      cases o with
      | none =>
        rw [ih (n + 1) none (by omega) hlen' hpre']
      | some d =>
        cases hcc : d.conditions with
        | none =>
          simp only [hcc]
          rw [ih (n + 1) (some d) (by omega) hlen' hpre']
        | some conds =>
          have hns : ¬ (condStatus conds = "CONDITION_SUCCEEDED") := by
            simp only [obsSucceeds, hcc, decide_eq_false_iff_not] at ho
            exact ho
          simp only [hcc, if_neg hns]
          rw [ih (n + 1) (some d) (by omega) hlen' hpre']

theorem pollAux_success_eq (serviceName : String) :
    ∀ (pre : List (Option ServiceDetails)) (n : Nat) (last : Option ServiceDetails)
      (d : ServiceDetails) (post : List (Option ServiceDetails)),
      n + pre.length ≤ 120 →
      (∀ o ∈ pre, obsSucceeds o = false) →
      obsSucceeds (some d) = true →
      pollAux serviceName (pre ++ some d :: post) n last =
        (.succeeded d, pre.length + 1) := by
  intro pre
  induction pre with
  | nil =>
    intro n last d post hn hpre hd
    have hnt : ¬ (POLLING_INTERVAL * n > POLLING_TIMEOUT) := by
      rw [poll_timeout_iff]; simp at hn; omega
    rw [pollAux.eq_def]
    simp only [if_neg hnt, List.nil_append]
    cases hc : d.conditions with
    | none => simp [obsSucceeds, hc] at hd
    | some conds =>
      have hd' : condStatus conds = "CONDITION_SUCCEEDED" := by
        simp only [obsSucceeds, hc, decide_eq_true_eq] at hd
        exact hd
      simp [hc, hd']
  | cons o pre' ih =>
    intro n last d post hn hpre hd
    have hnt : ¬ (POLLING_INTERVAL * n > POLLING_TIMEOUT) := by
      rw [poll_timeout_iff]; simp at hn; omega
    have hn' : (n + 1) + pre'.length ≤ 120 := by simp at hn; omega
    have hpre' : ∀ x ∈ pre', obsSucceeds x = false := fun x hx => hpre x (by simp [hx])
    have ho : obsSucceeds o = false := hpre o (by simp)
    rw [pollAux.eq_def]
    simp only [if_neg hnt, List.cons_append]
    cases o with
    | none =>
      rw [ih (n + 1) none d post hn' hpre' hd]
      simp
    | some dd =>
      cases hcc : dd.conditions with
      | none =>
        simp only [hcc]
        rw [ih (n + 1) (some dd) d post hn' hpre' hd]
        simp
      | some conds =>
        have hns : ¬ (condStatus conds = "CONDITION_SUCCEEDED") := by
          simp only [obsSucceeds, hcc, decide_eq_false_iff_not] at ho
          exact ho
        simp only [hcc, if_neg hns]
        rw [ih (n + 1) (some dd) d post hn' hpre' hd]
        simp

theorem timeoutResult_ne_succeeded (serviceName : String) (last : Option ServiceDetails)
    (d : ServiceDetails) : timeoutResult serviceName last ≠ .succeeded d := by
  unfold timeoutResult
  split
  · simp
  · split
    · simp
    · split
      · simp
      · simp

theorem pollAux_ne_succeeded (serviceName : String) :
    ∀ (obs : List (Option ServiceDetails)) (n : Nat) (last : Option ServiceDetails),
      (∀ o ∈ obs, obsSucceeds o = false) →
      ∀ d, (pollAux serviceName obs n last).1 ≠ .succeeded d := by
  intro obs
  induction obs with
  | nil =>
    intro n last _ d
    rw [pollAux.eq_def]
    split
    · exact timeoutResult_ne_succeeded serviceName last d
    · simp
  | cons o rest ih =>
    intro n last hno d
    have ho : obsSucceeds o = false := hno o (by simp)
    have hrest : ∀ x ∈ rest, obsSucceeds x = false := fun x hx => hno x (by simp [hx])
    rw [pollAux.eq_def]
    split
    · exact timeoutResult_ne_succeeded serviceName last d
    · cases o with
      | none => exact ih (n + 1) none hrest d
      | some dd =>
        cases hcc : dd.conditions with
        | none =>
          simp only [hcc]
          exact ih (n + 1) (some dd) hrest d
        | some conds =>
          have hns : ¬ (condStatus conds = "CONDITION_SUCCEEDED") := by
            simp only [obsSucceeds, hcc, decide_eq_false_iff_not] at ho
            exact ho
          simp only [hcc, if_neg hns]
          exact ih (n + 1) (some dd) hrest d

/-! ## C2 -/

theorem finalLast_append_singleton (init : Option ServiceDetails)
    (l : List (Option ServiceDetails)) (x : Option ServiceDetails) :
    finalLast init (l ++ [x]) = x := by
  unfold finalLast
  rw [List.foldl_append]
  rfl

/-- C2, amended: whenever no poll iteration observes the terminal-success
state, `createService` succeeded and the most recently fetched service
details carry a `conditions` array with a last element `c`, the poll loop
stops after its 10-minute wall-clock budget (121 status reads at the 5-second
interval) and `deploy` fails with the timeout error whose message carries
`c`'s state and, when present and non-empty, `c`'s message.  (When the last
fetched `conditions` array is present but empty the timeout handler itself
crashes instead — see the counterexample.) -/
theorem deploy_timeout_reports_last_condition
    (config : CloudRunConfig) (w : DeployWorld)
    (pre post : List (Option ServiceDetails)) (d : ServiceDetails)
    (conds : List ServiceCondition) (c : ServiceCondition)
    (hval : validateResourceConfig config = .ok ())
    (hname : isServiceNameValid config.service.name = true)
    (himg : config.container.image ≠ "")
    (hport : config.container.port ≠ 0)
    (hcr : w.createResult = .ok ())
    (hobs : w.observations = pre ++ some d :: post)
    (hlen : pre.length = 120)
    (hns : ∀ o ∈ pre ++ [some d], obsSucceeds o = false)
    (hconds : d.conditions = some conds)
    (hlast : conds.getLast? = some c) :
    deploy config w =
      (.err (baseTimeoutMsg config.service.name ++ "\nLast known status: " ++
        c.state ++ timeoutMsgSuffix c.message),
       DeployEvent.createService :: List.replicate 121 DeployEvent.getService) := by
  have htake : (pre ++ some d :: post).take 121 = pre ++ [some d] := by
    have h1 : (121 : Nat) = pre.length + 1 := by omega
    rw [h1, List.take_append]
    simp
  have hlen121 : 121 - 0 ≤ w.observations.length := by
    rw [hobs]
    simp
    omega
  have hpoll := pollAux_timeout_eq config.service.name w.observations 0 none
    (by omega) hlen121 (by
      intro o ho
      apply hns
      rw [hobs] at ho
      simpa [htake] using ho)
  rw [hobs] at hpoll
  simp only [Nat.sub_zero, htake, finalLast_append_singleton] at hpoll
  have htr : timeoutResult config.service.name (some d) =
      .timedOut (baseTimeoutMsg config.service.name ++ "\nLast known status: " ++
        c.state ++ timeoutMsgSuffix c.message) := by
    simp [timeoutResult, hconds, hlast]
  rw [htr] at hpoll
  unfold deploy
  rw [hval, hcr, hobs, hpoll]
  simp [hname, himg, hport]

/-- A non-terminal observation: condition state `CONDITION_PENDING`. -/
def c2Pending : ServiceDetails :=
  { conditions := some [{ state := "CONDITION_PENDING", message := none }], uri := "" }

/-- The last observation before the budget runs out: a failed condition with a
message. -/
def c2Final : ServiceDetails :=
  { conditions := some [{ state := "CONDITION_FAILED", message := some "container crashed" }],
    uri := "" }

def c2World : DeployWorld :=
  { createResult := .ok ()
    observations := List.replicate 120 (some c2Pending) ++ [some c2Final]
    iamResult := .ok ()
    lbResult := .ok () }

/-- Witness for C2: a deploy that polls 121 times without ever seeing
`CONDITION_SUCCEEDED` times out with the message carrying the last observed
condition's state and message. -/
theorem deploy_timeout_reports_last_condition_witness :
    deploy baseSample c2World =
      (.err (baseTimeoutMsg "my-svc" ++ "\nLast known status: " ++ "CONDITION_FAILED" ++
        timeoutMsgSuffix (some "container crashed")),
       DeployEvent.createService :: List.replicate 121 DeployEvent.getService) := by
  have h := deploy_timeout_reports_last_condition baseSample c2World
    (List.replicate 120 (some c2Pending)) [] c2Final
    [{ state := "CONDITION_FAILED", message := some "container crashed" }]
    { state := "CONDITION_FAILED", message := some "container crashed" }
    rfl rfl (by decide) (by decide) rfl rfl (by simp)
    (by
      intro o ho
      rcases List.mem_append.mp ho with h1 | h2
      · rw [List.eq_of_mem_replicate h1]; decide
      · simp at h2; rw [h2]; decide)
    rfl rfl
  exact h

/-- The degenerate observation: service details whose `conditions` array is
present but empty. -/
def c2Empty : ServiceDetails := { conditions := some [], uri := "" }

def c2CrashWorld : DeployWorld :=
  { createResult := .ok ()
    observations := List.replicate 121 (some c2Empty)
    iamResult := .ok ()
    lbResult := .ok () }

/-- C2 counterexample: a deploy in which every poll returns service details
with a present-but-empty `conditions` array never observes terminal success,
yet when the 10-minute budget expires the timeout handler evaluates
`conditions[conditions.length - 1].state` on the empty array — member access
on `undefined`, a `TypeError` — so the deploy does not fail with the timeout
outcome the claim describes. -/
theorem deploy_timeout_crashes_on_empty_conditions :
    (∀ o ∈ c2CrashWorld.observations, obsSucceeds o = false) ∧
    (deploy baseSample c2CrashWorld).1 = .crash := by
  constructor
  · intro o ho
    rw [List.eq_of_mem_replicate ho]
    decide
  · decide

/-! ## C3 -/

def isIamEvent : DeployEvent → Bool
  | .setIamPolicy _ _ _ => true
  | _ => false

/-- The `setIamPolicy` calls of a deploy trace, in order. -/
def iamEvents (evs : List DeployEvent) : List DeployEvent :=
  evs.filter isIamEvent

theorem filter_isIam_replicate (k : Nat) :
    (List.replicate k DeployEvent.getService).filter isIamEvent = [] := by
  induction k with
  | zero => rfl
  | succ m ih =>
    rw [List.replicate_succ, List.filter_cons]
    simp [isIamEvent, ih]

theorem iamEvents_poll_trace (k : Nat) :
    iamEvents (DeployEvent.createService :: List.replicate k DeployEvent.getService) = [] := by
  unfold iamEvents
  rw [List.filter_cons]
  simp [isIamEvent, filter_isIam_replicate]

/-- The events `deploy` emits after the `setIamPolicy` call: nothing when the
IAM call failed, otherwise the load-balancer phase when one is configured. -/
def deployTailAfterIam (config : CloudRunConfig) (w : DeployWorld) : List DeployEvent :=
  match w.iamResult with
  | .error _ => []
  | .ok _ =>
    match config.load_balancer with
    | some _ => [.lbSetup]
    | none => []

/-- C3: for a deploy that reaches terminal success, if
`allow_unauthenticated` is true then exactly one `setIamPolicy` call is made,
granting `roles/run.invoker` to `allUsers`, and it is placed strictly after
the `createService` call and all the `getService` polls (so only after
terminal success is observed), and a failing IAM call makes the whole deploy
fail with that error; if `allow_unauthenticated` is false, or polling never
observes success, no `setIamPolicy` call is ever made. -/
theorem deploy_iam_exactly_once_after_success
    (config : CloudRunConfig) (w : DeployWorld)
    (hval : validateResourceConfig config = .ok ())
    (hname : isServiceNameValid config.service.name = true)
    (himg : config.container.image ≠ "")
    (hport : config.container.port ≠ 0)
    (hcr : w.createResult = .ok ()) :
    (∀ (pre post : List (Option ServiceDetails)) (d : ServiceDetails),
      w.observations = pre ++ some d :: post →
      (∀ o ∈ pre, obsSucceeds o = false) →
      pre.length ≤ 120 →
      obsSucceeds (some d) = true →
      config.service.allow_unauthenticated = true →
        ((deploy config w).2 =
          DeployEvent.createService ::
            (List.replicate (pre.length + 1) DeployEvent.getService ++
              DeployEvent.setIamPolicy (servicePath config) "roles/run.invoker" ["allUsers"] ::
                deployTailAfterIam config w) ∧
         iamEvents (deploy config w).2 =
           [DeployEvent.setIamPolicy (servicePath config) "roles/run.invoker" ["allUsers"]] ∧
         (∀ e, w.iamResult = .error e → (deploy config w).1 = .err e))) ∧
    (config.service.allow_unauthenticated = false →
      iamEvents (deploy config w).2 = []) ∧
    ((∀ o ∈ w.observations, obsSucceeds o = false) →
      iamEvents (deploy config w).2 = []) := by
  refine ⟨?_, ?_, ?_⟩
  · intro pre post d hobs hpre hplen hd hallow
    have hpoll := pollAux_success_eq config.service.name pre 0 none d post
      (by omega) hpre hd
    unfold deploy
    rw [hval, hcr, hobs, hpoll]
    simp only [hname, Bool.not_true, Bool.false_eq_true, if_false, if_neg]
    cases hiam : w.iamResult with
    | ok u =>
      cases u
      cases hlb : config.load_balancer with
      | some lb =>
        cases hlbr : w.lbResult <;>
          simp [himg, hport, hallow, hiam, hlb, hlbr, deployLbPhase, deployTailAfterIam,
            iamEvents, List.filter_append, List.filter_cons, isIamEvent,
            filter_isIam_replicate]
      | none =>
        simp [himg, hport, hallow, hiam, hlb, deployLbPhase, deployTailAfterIam,
          iamEvents, List.filter_append, List.filter_cons, isIamEvent,
          filter_isIam_replicate]
    | error e0 =>
      simp [himg, hport, hallow, hiam, deployTailAfterIam, iamEvents,
        List.filter_append, List.filter_cons, isIamEvent, filter_isIam_replicate]
  · intro hfalse
    unfold deploy
    rw [hval, hcr]
    rcases hp : pollAux config.service.name w.observations 0 none with ⟨pr1, k⟩
    cases pr1 with
    | succeeded d =>
      cases hlb : config.load_balancer with
      | some lb =>
        cases hlbr : w.lbResult <;>
          simp [hname, himg, hport, hp, hfalse, hlb, hlbr, deployLbPhase, iamEvents,
            List.filter_append, List.filter_cons, isIamEvent, filter_isIam_replicate]
      | none =>
        simp [hname, himg, hport, hp, hfalse, hlb, deployLbPhase, iamEvents,
          List.filter_cons, isIamEvent, filter_isIam_replicate]
    | timedOut m =>
      simp [hname, himg, hport, hp, iamEvents, List.filter_cons, isIamEvent,
        filter_isIam_replicate]
    | crashed =>
      simp [hname, himg, hport, hp, iamEvents, List.filter_cons, isIamEvent,
        filter_isIam_replicate]
    | pending =>
      simp [hname, himg, hport, hp, iamEvents, List.filter_cons, isIamEvent,
        filter_isIam_replicate]
  · intro hnos
    unfold deploy
    rw [hval, hcr]
    rcases hp : pollAux config.service.name w.observations 0 none with ⟨pr1, k⟩
    cases pr1 with
    | succeeded d =>
      exfalso
      have hne := pollAux_ne_succeeded config.service.name w.observations 0 none hnos d
      rw [hp] at hne
      exact hne rfl
    | timedOut m =>
      simp [hname, himg, hport, hp, iamEvents, List.filter_cons, isIamEvent,
        filter_isIam_replicate]
    | crashed =>
      simp [hname, himg, hport, hp, iamEvents, List.filter_cons, isIamEvent,
        filter_isIam_replicate]
    | pending =>
      simp [hname, himg, hport, hp, iamEvents, List.filter_cons, isIamEvent,
        filter_isIam_replicate]

def c3Config : CloudRunConfig :=
  { baseSample with
    service := { name := "my-svc", allow_unauthenticated := true, service_account := none } }

def c3Success : ServiceDetails :=
  { conditions := some [{ state := "CONDITION_SUCCEEDED", message := none }]
    uri := "https://my-svc.run.app" }

def c3World : DeployWorld :=
  { createResult := .ok ()
    observations := [some c3Success]
    iamResult := .ok ()
    lbResult := .ok () }

/-- Witness for C3: with `allow_unauthenticated: true` and a first poll that
reports `CONDITION_SUCCEEDED`, the deploy trace is the create call, one
status read, then exactly one `setIamPolicy` call granting `roles/run.invoker`
to `allUsers`. -/
theorem deploy_iam_exactly_once_after_success_witness :
    (deploy c3Config c3World).2 =
      DeployEvent.createService ::
        (List.replicate 1 DeployEvent.getService ++
          DeployEvent.setIamPolicy (servicePath c3Config) "roles/run.invoker" ["allUsers"] ::
            deployTailAfterIam c3Config c3World) ∧
    iamEvents (deploy c3Config c3World).2 =
      [DeployEvent.setIamPolicy (servicePath c3Config) "roles/run.invoker" ["allUsers"]] := by
  have h := (deploy_iam_exactly_once_after_success c3Config c3World rfl (by decide)
    (by decide) (by decide) rfl).1 [] [] c3Success rfl (by simp) (by simp) (by decide) rfl
  exact ⟨h.1, h.2.1⟩
